import Mathlib

/-!
Verification of the mem0Client content pipeline: a shallow embedding of
`src/core/parser.py`, `src/core/uploader.py` and `src/core/searcher.py`.

Python strings are modelled by `String` (both count Unicode code points),
Python dicts whose lookup semantics matter are modelled by association
lists where the *last* binding of a key wins (this is exactly the
observable behaviour of `{**a, **b}` and of `dict.update`), and the two
external collaborators — the regex library (`re.findall` / `re.search`)
and the Mem0 backend client — are modelled as explicit function
parameters, so theorems quantify over every possible behaviour of them.
-/

namespace Mem0Client

/-- `startsWithList s p` : the char list `p` is an initial segment of `s`
(Python `str.startswith` on the tails scanned by `in`). -/
def startsWithList : List Char → List Char → Bool
  | _, [] => true
  | [], _ :: _ => false
  | c :: cs, d :: ds => c == d && startsWithList cs ds

/-- `containsList s sub` : `sub` occurs contiguously inside `s`
(Python's substring operator `sub in s`). -/
def containsList : List Char → List Char → Bool
  | [], sub => sub.isEmpty
  | c :: rest, sub => startsWithList (c :: rest) sub || containsList rest sub

/-- Python `needle in haystack` on strings. -/
def strContains (haystack needle : String) : Bool :=
  containsList haystack.data needle.data

/-- Python `s.count('\n')`. -/
def countNewlines (s : String) : Nat :=
  s.data.count '\n'

/-- Python `s.strip()`: drop whitespace from both ends. -/
def pyStrip (s : String) : String :=
  ⟨((s.data.dropWhile Char.isWhitespace).reverse.dropWhile
      Char.isWhitespace).reverse⟩

/-- Python `s.lower()`. -/
def pyLower (s : String) : String :=
  ⟨s.data.map Char.toLower⟩

/-- Python `s.startswith(pre)`. -/
def strStartsWith (s pre : String) : Bool :=
  startsWithList s.data pre.data

/-- Python slicing `s[:n]`. -/
def pyTake (s : String) (n : Nat) : String :=
  ⟨s.data.take n⟩

/-- Python `sep.join(parts)`. -/
def pyJoin (sep : String) : List String → String
  | [] => ""
  | [s] => s
  | s :: t :: rest => s ++ sep ++ pyJoin sep (t :: rest)

/-- Lexicographic (code-point) order on char lists, as Python compares
strings. -/
def lexLt : List Char → List Char → Bool
  | [], [] => false
  | [], _ :: _ => true
  | _ :: _, [] => false
  | a :: as, b :: bs => a < b || (a == b && lexLt as bs)

/-- Python `a < b` on strings. -/
def pyStrLt (a b : String) : Bool := lexLt a.data b.data

/-- A chat message as built by the parsers: `{"role": ..., "content": ...}`. -/
structure Msg where
  role : String
  content : String
deriving DecidableEq, Repr

/-! ## `FileParser._normalize_role` (src/core/parser.py, lines 181-199) -/

/-- The user alias set of `_normalize_role`. -/
def userAliases : List String := ["user", "human", "you", "me", "用户", "我"]

/-- The assistant alias set of `_normalize_role`. -/
def assistantAliases : List String :=
  ["assistant", "ai", "bot", "gpt", "claude", "chatgpt", "助手", "机器人"]

/-- The system alias set of `_normalize_role`. -/
def systemAliases : List String := ["system", "sys", "系统"]

/-- `FileParser._normalize_role`: the lowercased, stripped raw label
(`role.lower().strip()`, line 184). -/
def roleKey (role : String) : String := pyStrip (pyLower role)

/-- `FileParser._normalize_role`: test the three alias sets in order by
substring containment against the lowercased stripped label; default to
`"user"`. -/
def normalizeRole (role : String) : String :=
  if userAliases.any (fun a => strContains (roleKey role) a) then "user"
  else if assistantAliases.any (fun a => strContains (roleKey role) a) then
    "assistant"
  else if systemAliases.any (fun a => strContains (roleKey role) a) then
    "system"
  else "user"

/-! ## `FileParser.parse_plain_text` (src/core/parser.py, lines 202-228) -/

/-- `FileParser.parse_plain_text`, messages part: one user message holding
`content.strip()`, for both extract modes. The second component is the
metadata `format` field (`raw_content` vs `ai_extract`). -/
def parsePlainText (content : String) (extractMode : String) :
    List Msg × String :=
  if extractMode == "raw" then ([⟨"user", pyStrip content⟩], "raw_content")
  else ([⟨"user", pyStrip content⟩], "ai_extract")

/-! ## `FileParser.parse_markdown_chat` (src/core/parser.py, lines 128-179)

The four regex pattern source texts of the `patterns` list, verbatim. -/

/-- The `patterns` list of `parse_markdown_chat` (lines 147-156), as the
regex source strings appearing in the Python file. -/
def parserPatterns : List String :=
  ["\\*\\*([^*]+):\\*\\*\\s*(.*?)(?=\\*\\*[^*]+:\\*\\*|$)",
   "^##\\s+([^#\\n]+)\\n(.*?)(?=^##\\s+|$)",
   "^([^:\\n]+):\\s*(.*?)(?=^[^:\\n]+:|$)",
   "\\[([^\\]]+)\\]\\s*(.*?)(?=\\[[^\\]]+\\]|$)"]

/-- Loop of lines 158-169: return the `re.findall` result of the first
pattern index (among the given ones, in order) whose match list is
non-empty; `[]` when every pattern finds nothing.  `findall i content`
models `re.findall(patterns[i], content, re.MULTILINE | re.DOTALL)`. -/
def firstFindall (findall : Nat → String → List (String × String))
    (content : String) : List Nat → List (String × String)
  | [] => []
  | i :: rest =>
    let m := findall i content
    if m.isEmpty then firstFindall findall content rest else m

/-- Lines 161-168: from the `(role_raw, message_content)` pairs of the
winning pattern, keep only those whose body strips to non-empty, with the
role normalized and the body stripped. -/
def buildMdMsgs (pairs : List (String × String)) : List Msg :=
  pairs.filterMap (fun p =>
    if pyStrip p.2 == "" then none
    else some ⟨normalizeRole (pyStrip p.1), pyStrip p.2⟩)

/-- `FileParser.parse_markdown_chat`, messages part.  The second component
is the metadata `format` field: `"conversation"` from the initial metadata
literal, overwritten with `"single_message"` when the fallback of lines
172-177 fires (zero surviving messages). -/
def parseMarkdownChat (findall : Nat → String → List (String × String))
    (content : String) : List Msg × String :=
  let msgs := buildMdMsgs (firstFindall findall content [0, 1, 2, 3])
  if msgs.isEmpty then ([⟨"user", pyStrip content⟩], "single_message")
  else (msgs, "conversation")

/-! ## `FileParser.parse_json_chat` (src/core/parser.py, lines 13-126)

`json.loads` is external; its result is modelled structurally.  An element
of the `messages` array is either not a dict (skipped, lines 72-73) or a
dict carrying optional `role` and `content` string entries.  (A dict whose
`content` is a truthy non-string raises before the function returns, so no
message list is ever produced from it; such inputs are outside the model.)
The metadata block of lines 44-67 and 107-118 (conversation title/id/
timestamps, message_count, role_distribution) carries no decision logic
relevant to the claims and is not modelled. -/

/-- One element of the `messages` array after `json.loads`. -/
inductive RawMsg
  | notDict
  | dict (role : Option String) (content : Option String)
deriving DecidableEq, Repr

/-- The shape of a successfully `json.loads`-decoded object: whether it is
a dict with a `messages` list, and if so the elements of that list. -/
structure JsonChat where
  hasMessages : Bool
  msgs : List RawMsg
deriving DecidableEq, Repr

/-- Lines 70-105: skip non-dict entries; default role to `"user"` and
content to `""`; skip entries whose content is empty or strips to empty;
otherwise emit the normalized role with the stripped content. -/
def jsonMsgStep : RawMsg → Option Msg
  | .notDict => none
  | .dict role content =>
    if content.getD "" == "" || pyStrip (content.getD "") == "" then none
    else some ⟨normalizeRole (role.getD "user"), pyStrip (content.getD "")⟩

/-- `FileParser.parse_json_chat`, messages part.  `none` input models a
`json.loads` failure (line 41 raises `ValueError`); a missing `messages`
array raises (line 121); zero surviving messages raises (line 124). -/
def parseJsonChat (data : Option JsonChat) : Except String (List Msg) :=
  match data with
  | none => .error "Invalid JSON format"
  | some jc =>
    if jc.hasMessages then
      let messages := jc.msgs.filterMap jsonMsgStep
      if messages.isEmpty then .error "No valid messages found in JSON"
      else .ok messages
    else .error "JSON must contain a messages array"

/-! ## `FileParser.detect_content_type` (src/core/parser.py, lines 258-293) -/

/-- The `chat_indicators` list (lines 281-287), as the regex source
strings appearing in the Python file. -/
def chatIndicators : List String :=
  ["\\*\\*[^*]+:\\*\\*",
   "^##\\s+[^#\\n]+",
   "^[^:\\n]+:\\s",
   "\\[[^\\]]+\\]",
   "(user|assistant|human|ai|bot|gpt|claude)[\\s:：]"]

/-- `FileParser.detect_content_type`.  `isJsonChat content` models
lines 272-275: `json.loads(content)` succeeds and yields a dict containing
a `messages` key (a decode failure falls through, line 277-278).
`hasMatch i content` models `re.search(chat_indicators[i], content,
re.MULTILINE | re.IGNORECASE)` being non-`None`. -/
def detectContentType (isJsonChat : String → Bool)
    (hasMatch : Nat → String → Bool)
    (content : String) (fileExtension : String) : String :=
  if (pyLower fileExtension == ".json" ||
      strStartsWith (pyStrip content) "\x7b")
      && isJsonChat content then "json_chat"
  else if (List.range chatIndicators.length).any (fun i => hasMatch i content)
    then "markdown_chat"
  else "plain_text"

/-! ## `FileParser.parse_file` (src/core/parser.py, lines 295-341) -/

/-- `pathlib.PurePath.suffix` on the final path component: the substring
from the last dot, unless that dot is the first or last character. -/
def pathSuffix (name : String) : String :=
  let cs := name.data
  let n := cs.length
  match cs.reverse.findIdx? (fun c => c == '.') with
  | none => ""
  | some r =>
    let i := n - 1 - r
    if 0 < i ∧ i < n - 1 then ⟨cs.drop i⟩ else ""

/-- The `.md` override condition of lines 325-328: export-tool marker,
more than 3000 characters, or more than 50 newlines. -/
def mdOverride (content : String) : Bool :=
  strContains content "Made with Echoes" ||
  strContains content "This conversation was exported" ||
  decide (content.length > 3000) ||
  decide (countNewlines content > 50)

/-- Content-type selection of `parse_file` (lines 319-329): detect, then
force `plain_text` for `.md`-suffixed paths meeting the override
condition.  `name` is the final component of the file path. -/
def parseFileContentType (isJsonChat : String → Bool)
    (hasMatch : Nat → String → Bool) (name content : String) : String :=
  let ct := detectContentType isJsonChat hasMatch content (pathSuffix name)
  if pyLower (pathSuffix name) == ".md" && mdOverride content then
    "plain_text"
  else ct

/-- Dispatch of `parse_file` (lines 331-336), messages part.  `decodeJson`
models `json.loads` for the `json_chat` branch. -/
def parseFileMessages (isJsonChat : String → Bool)
    (hasMatch : Nat → String → Bool)
    (decodeJson : String → Option JsonChat)
    (findall : Nat → String → List (String × String))
    (name content extractMode : String) : Except String (List Msg) :=
  match parseFileContentType isJsonChat hasMatch name content with
  | "json_chat" => parseJsonChat (decodeJson content)
  | "markdown_chat" => .ok (parseMarkdownChat findall content).1
  | _ => .ok (parsePlainText content extractMode).1

/-! ## Metadata merging in `MemoryUploader` (src/core/uploader.py)

Only lookups on the merged dict are observable downstream, so a dict is an
association list in insertion order and `mget` returns the value of the
*last* binding of a key — exactly the lookup behaviour of the Python dict
produced by `{**a, **b}` (later source wins) and by `d.update(e)`. -/

/-- A metadata value: the merged dicts hold strings and (for `infer`) a
boolean. -/
inductive MVal
  | s (v : String)
  | b (v : Bool)
deriving DecidableEq, Repr

/-- A metadata dict as an insertion-ordered association list. -/
abbrev Meta := List (String × MVal)

/-- Dict lookup: the value of the last binding of `k`, if any. -/
def mget (d : Meta) (k : String) : Option MVal :=
  (d.reverse.find? (fun p => p.1 == k)).map (·.2)

/-- The metadata dict built by `parse_plain_text` (parser.py lines
213-226): `source`, `extract_mode`, `parsed_at`, then `format`. -/
def parsePlainTextMeta (extractMode parsedAt : String) : Meta :=
  [("source", .s "plain_text"), ("extract_mode", .s extractMode),
   ("parsed_at", .s parsedAt),
   ("format", .s (if extractMode == "raw" then "raw_content" else "ai_extract"))]

/-- Conditional entries of uploader.py lines 72-79 / 202-209.  The three
string options are added under Python truthiness (`if custom_instructions:`),
so an empty string is not added; `infer` is compared against `None`. -/
def optsMeta (ci inc exc : Option String) (infer : Option Bool) : Meta :=
  (match ci with
   | some v => if v == "" then [] else [("custom_instructions", MVal.s v)]
   | none => []) ++
  (match inc with
   | some v => if v == "" then [] else [("includes", MVal.s v)]
   | none => []) ++
  (match exc with
   | some v => if v == "" then [] else [("excludes", MVal.s v)]
   | none => []) ++
  (match infer with
   | some v => [("infer", MVal.b v)]
   | none => [])

/-- `final_metadata` of `upload_text` (uploader.py lines 63-79): the dict
literal puts the three fresh fields FIRST, then spreads the parsed
metadata of `parse_plain_text`, then the caller-supplied metadata, and
finally the conditional option entries are assigned. -/
def uploadTextMeta (now userId extractMode parsedAt : String)
    (callerMeta : Option Meta) (ci inc exc : Option String)
    (infer : Option Bool) : Meta :=
  [("upload_time", MVal.s now), ("user_id", MVal.s userId),
   ("extract_mode", MVal.s extractMode)]
  ++ parsePlainTextMeta extractMode parsedAt
  ++ callerMeta.getD []
  ++ optsMeta ci inc exc infer

/-- `metadata` of `upload_file` after the merge (uploader.py lines
189-209): the dict returned by `parse_file`, then `metadata.update` with
the three fresh fields, then the conditional option entries. -/
def uploadFileMeta (parsedMeta : Meta) (now userId extractMode : String)
    (ci inc exc : Option String) (infer : Option Bool) : Meta :=
  parsedMeta
  ++ [("upload_time", MVal.s now), ("user_id", MVal.s userId),
      ("extract_mode", MVal.s extractMode)]
  ++ optsMeta ci inc exc infer

/-! ## `MemorySearcher` (src/core/searcher.py)

The filter dicts handed to the backend are modelled as a tree; backend
calls record which client method is invoked with which query, filter and
limit.  The backend itself (`MemoryClient.search` / `get_all`) is a
function parameter, and `datetime.now()`-derived date strings are
parameters (`dateRange d` models the `(start, end)` strings computed from
`days_back = d`). -/

/-- A v2 filter expression: `{key: value}`, `{key: {op1: v1, ...}}`,
`{"AND": [...]}` or `{"NOT": [f]}` (the code always puts exactly one
element in a NOT list). -/
inductive MFilter
  | field (key value : String)
  | range (key : String) (ops : List (String × String))
  | and (fs : List MFilter)
  | nots (f : MFilter)

/-- One call to the backend client. -/
inductive BackendCall
  | search (query : String) (filters : MFilter) (limit : Nat)
  | getAll (filters : MFilter) (limit : Nat)

/-- The filter argument of a backend call. -/
def callFilter : BackendCall → MFilter
  | .search _ f _ => f
  | .getAll f _ => f

/-- `f` is an outer AND tree with a `user_id == u` equality member. -/
def isUserScopedAnd (f : MFilter) (u : String) : Prop :=
  ∃ fs, f = .and fs ∧ MFilter.field "user_id" u ∈ fs

/-- `MemorySearcher.search_by_query` (lines 32-64): wrap `user_id` in an
outer AND and append the caller filter dict when truthy (`none` models
both `None` and `{}`), then call `client.search`. -/
def searchByQueryCall (query : String) (userId : String) (lim : Nat)
    (extra : Option MFilter) : BackendCall :=
  .search query
    (.and ([MFilter.field "user_id" userId] ++
      (match extra with | some f => [f] | none => []))) lim

/-- The `time_filter` dict of lines 108-113:
`{"AND": [{user_id}, {created_at: {gte, lte}}]}`. -/
def timeRangeFilter (se : String × String) (userId : String) : MFilter :=
  .and [.field "user_id" userId,
        .range "created_at" [("gte", se.1), ("lte", se.2)]]

/-- Lines 115-131: `client.search` for a truthy query within the time
range, else `client.get_all`. -/
def timeRangeQuery (se : String × String) (userId : String)
    (query : Option String) (lim : Nat) : BackendCall :=
  match query with
  | some q =>
    if q == "" then .getAll (timeRangeFilter se userId) lim
    else .search q (timeRangeFilter se userId) lim
  | none => .getAll (timeRangeFilter se userId) lim

/-- `MemorySearcher.search_by_time_range` (lines 73-133) up to the backend
call: resolve the date range (`days_back` wins; otherwise both explicit
dates are required, line 104 raises `ValueError` when one is missing),
then build the filter and call the backend. -/
def searchByTimeRangeCall (dateRange : Nat → String × String)
    (daysBack : Option Nat) (startDate endDate : Option String)
    (userId : String) (query : Option String) (lim : Nat) :
    Except String BackendCall :=
  match daysBack with
  | some d => .ok (timeRangeQuery (dateRange d) userId query lim)
  | none =>
    match startDate, endDate with
    | some s, some e => .ok (timeRangeQuery (s, e) userId query lim)
    | _, _ =>
      .error "Either days_back or both start_date and end_date must be provided"

/-- `MemorySearcher.search_related_to_content` (lines 195-240): outer AND
with `user_id`, plus a NOT-wrapped inclusive date range when the exclusion
dict carries both a `start` and an `end` key; query truncated to 500
characters. -/
def searchRelatedCall (content : String) (userId : String)
    (excludeRange : Option (Option String × Option String)) (lim : Nat) :
    BackendCall :=
  let base := [MFilter.field "user_id" userId]
  let withNot :=
    match excludeRange with
    | some (some s, some e) =>
      base ++ [MFilter.nots (.range "created_at" [("gte", s), ("lte", e)])]
    | some _ => base
    | none => base
  .search (pyTake content 500) (.and withNot) lim

/-- `MemorySearcher.get_user_stats` (lines 298-349), backend calls only:
a bare `{"user_id": user_id}` filter dict to `client.get_all` with limit
1000, followed by `search_by_time_range(days_back=7, limit=1000)`. -/
def getUserStatsCalls (dateRange : Nat → String × String)
    (userId : String) : List BackendCall :=
  [.getAll (.field "user_id" userId) 1000] ++
  (match searchByTimeRangeCall dateRange (some 7) none none userId none 1000 with
   | .ok c => [c]
   | .error _ => [])

/-- A backend record as consumed by the weekly report:
`m.get('memory', '')` with the default folded in. -/
structure Memory where
  memory : String
deriving DecidableEq, Repr

/-- The record lists of the weekly report structure (lines 184-193). -/
structure WeeklyData where
  weekMemories : List Memory
  relatedMemories : List Memory
deriving DecidableEq, Repr

/-- The first backend call of `search_weekly_report_data`: what
`search_by_time_range(start_date=weekStart, end_date=weekEnd, user_id,
limit=maxLim)` issues (lines 160-165) — a `get_all` with the inclusive
week range. -/
def weeklyCall1 (weekStart weekEnd userId : String) (maxLim : Nat) :
    BackendCall :=
  .getAll (.and [.field "user_id" userId,
                 .range "created_at" [("gte", weekStart), ("lte", weekEnd)]])
    maxLim

/-- Line 171: the space-joined `memory` text of the first 5 records. -/
def weeklyQueryText (weekMems : List Memory) : String :=
  pyJoin " " ((weekMems.take 5).map (·.memory))

/-- Lines 175-180: the second backend call, through `search_by_query`,
with the query truncated to 500 characters, limit 20 and a
`created_at < weekStart` extra predicate. -/
def weeklyCall2 (weekStart userId : String) (txt : String) : BackendCall :=
  searchByQueryCall (pyTake txt 500) userId 20
    (some (.range "created_at" [("lt", weekStart)]))

/-- `MemorySearcher.search_weekly_report_data` (lines 139-193):
the issued backend calls (in order) paired with the two record lists.
`weekStart`/`weekEnd` are the `datetime.now()`-derived week-boundary
strings of lines 155-157.  The second query is issued only when the week
is non-empty (line 169) and its joined memory text strips to non-empty
(line 174). -/
def searchWeeklyReportData (backend : BackendCall → List Memory)
    (weekStart weekEnd : String) (userId : String) (maxLim : Nat) :
    List BackendCall × WeeklyData :=
  let c1 := weeklyCall1 weekStart weekEnd userId maxLim
  let weekMems := backend c1
  if weekMems.isEmpty then ([c1], ⟨weekMems, []⟩)
  else if pyStrip (weeklyQueryText weekMems) == "" then ([c1], ⟨weekMems, []⟩)
  else
    let c2 := weeklyCall2 weekStart userId (weeklyQueryText weekMems)
    ([c1, c2], ⟨weekMems, backend c2⟩)

/-! ## `MemoryUploader.upload_batch` (src/core/uploader.py, lines 287-322)

`upload_file` performs network I/O, so it is a function parameter mapping
a file path to either an upload result or a raised exception message. -/

/-- One entry of the `results` list of `upload_batch`. -/
structure BatchItem where
  file : String
  status : String
  info : String
deriving DecidableEq, Repr

/-- The loop body of lines 307-312: try `upload_file`, record
`{"file": ..., "status": "success", "result": ...}` on success and
`{"file": ..., "status": "error", "error": str(e)}` on exception. -/
def batchOutcome (uploadFile : String → Except String String)
    (filePath : String) : BatchItem :=
  match uploadFile filePath with
  | .ok r => ⟨filePath, "success", r⟩
  | .error e => ⟨filePath, "error", e⟩

/-- `MemoryUploader.upload_batch`: the sequential loop over the file
paths, collecting one per-item outcome each. -/
def uploadBatch (uploadFile : String → Except String String)
    (filePaths : List String) : List BatchItem :=
  filePaths.map (batchOutcome uploadFile)

/-- Erase the capture-group parentheses of a regex source string, leaving
its structural core. -/
def stripParens (s : String) : String :=
  ⟨s.data.filter (fun c => !(c == '(' || c == ')'))⟩

/-! ## Helper lemmas -/

theorem dropWhile_idem (p : α → Bool) (l : List α) :
    (l.dropWhile p).dropWhile p = l.dropWhile p := by
  induction l with
  | nil => rfl
  | cons a t ih =>
    by_cases h : p a
    · simpa [List.dropWhile_cons, h] using ih
    · simp [List.dropWhile_cons, h]

theorem dropWhile_is_suffix (p : α → Bool) (l : List α) :
    ∃ t, t ++ l.dropWhile p = l := by
  induction l with
  | nil => exact ⟨[], rfl⟩
  | cons a t ih =>
    by_cases h : p a
    · obtain ⟨u, hu⟩ := ih
      exact ⟨a :: u, by simp [List.dropWhile_cons, h, hu]⟩
    · exact ⟨[], by simp [List.dropWhile_cons, h]⟩

theorem length_dropWhile_le (p : α → Bool) (l : List α) :
    (l.dropWhile p).length ≤ l.length := by
  induction l with
  | nil => simp
  | cons a t ih =>
    by_cases h : p a
    · simp only [List.dropWhile_cons, h, if_pos, List.length_cons]
      omega
    · simp [List.dropWhile_cons, h]

/-- A prefix of a `dropWhile`-fixed list is itself `dropWhile`-fixed. -/
theorem dropWhile_prefix_self (p : α → Bool) (pre suf : List α)
    (h : (pre ++ suf).dropWhile p = pre ++ suf) :
    pre.dropWhile p = pre := by
  cases pre with
  | nil => rfl
  | cons a t =>
    by_cases hp : p a
    · exfalso
      rw [List.cons_append, List.dropWhile_cons_of_pos hp] at h
      have h1 := congrArg List.length h
      have h2 := length_dropWhile_le p (t ++ suf)
      simp [List.length_append] at h1 h2
      omega
    · simp [List.dropWhile_cons, hp]

/-- Python `strip` is idempotent. -/
theorem pyStrip_idem (s : String) : pyStrip (pyStrip s) = pyStrip s := by
  unfold pyStrip
  have hd1 : ∀ l : List Char,
      (l.dropWhile Char.isWhitespace).dropWhile Char.isWhitespace
        = l.dropWhile Char.isWhitespace := dropWhile_idem _
  set d1 := s.data.dropWhile Char.isWhitespace with hd1def
  set r := d1.reverse.dropWhile Char.isWhitespace with hrdef
  show String.mk (((r.reverse.dropWhile Char.isWhitespace).reverse.dropWhile
      Char.isWhitespace).reverse) = String.mk r.reverse
  have hA : r.reverse.dropWhile Char.isWhitespace = r.reverse := by
    obtain ⟨t, ht⟩ := dropWhile_is_suffix Char.isWhitespace d1.reverse
    have hsplit : d1 = r.reverse ++ t.reverse := by
      have h2 := congrArg List.reverse ht
      simp only [List.reverse_append, List.reverse_reverse] at h2
      rw [← h2, ← hrdef]
    have hfix : (r.reverse ++ t.reverse).dropWhile Char.isWhitespace
        = r.reverse ++ t.reverse := by
      rw [← hsplit, hd1def]
      exact hd1 _
    exact dropWhile_prefix_self _ _ _ hfix
  have hB : r.dropWhile Char.isWhitespace = r := by
    rw [hrdef]
    exact hd1 _
  rw [hA, List.reverse_reverse, hB]

theorem pyStrip_ne_empty_of_stripped {s : String} (h : pyStrip s ≠ "") :
    pyStrip (pyStrip s) ≠ "" := by
  rwa [pyStrip_idem]

/-- Every message kept by the pattern loop of `parse_markdown_chat` has
content that strips to non-empty. -/
theorem buildMdMsgs_content_ne {pairs : List (String × String)} {m : Msg}
    (hm : m ∈ buildMdMsgs pairs) : pyStrip m.content ≠ "" := by
  obtain ⟨p, _, hsome⟩ := List.mem_filterMap.mp hm
  split at hsome
  · exact Option.noConfusion hsome
  · next hcond =>
    have hmv := Option.some.inj hsome
    have hne : pyStrip p.2 ≠ "" := by
      simpa using hcond
    rw [← hmv]
    exact pyStrip_ne_empty_of_stripped hne

/-- Every message kept by the loop of `parse_json_chat` has content that
strips to non-empty. -/
theorem jsonMsgStep_content_ne {r : RawMsg} {m : Msg}
    (hm : jsonMsgStep r = some m) : pyStrip m.content ≠ "" := by
  match r with
  | .notDict => exact Option.noConfusion hm
  | .dict role content =>
    rw [jsonMsgStep] at hm
    split at hm
    · exact Option.noConfusion hm
    · next hcond =>
      have hmv := Option.some.inj hm
      have hne : pyStrip (content.getD "") ≠ "" := by
        simp only [Bool.or_eq_true, beq_iff_eq, not_or] at hcond
        exact hcond.2
      rw [← hmv]
      exact pyStrip_ne_empty_of_stripped hne

/-! ## Claim C8 -/

/-- C8: `_normalize_role` is total — it returns one of `user`, `assistant`
or `system` for every input string; it returns `user` whenever no alias
set matches; and it is idempotent: normalizing its own output returns the
same role label. -/
theorem C8_normalizeRole_total_default_idempotent (x : String) :
    (normalizeRole x = "user" ∨ normalizeRole x = "assistant" ∨
      normalizeRole x = "system")
    ∧ (userAliases.any (fun a => strContains (roleKey x) a) = false →
       assistantAliases.any (fun a => strContains (roleKey x) a) = false →
       systemAliases.any (fun a => strContains (roleKey x) a) = false →
       normalizeRole x = "user")
    ∧ normalizeRole (normalizeRole x) = normalizeRole x := by
  have hu : normalizeRole "user" = "user" := by decide
  have ha : normalizeRole "assistant" = "assistant" := by decide
  have hs : normalizeRole "system" = "system" := by decide
  have htot : normalizeRole x = "user" ∨ normalizeRole x = "assistant" ∨
      normalizeRole x = "system" := by
    unfold normalizeRole
    split
    · exact Or.inl rfl
    · split
      · exact Or.inr (Or.inl rfl)
      · split
        · exact Or.inr (Or.inr rfl)
        · exact Or.inl rfl
  refine ⟨htot, ?_, ?_⟩
  · intro h1 h2 h3
    simp [normalizeRole, h1, h2, h3]
  · rcases htot with h | h | h <;> rw [h]
    · exact hu
    · exact ha
    · exact hs

/-- Witness for C8 at the ambiguous label `"zzz"`. -/
theorem C8_witness :
    normalizeRole "zzz" = "user" ∧
    normalizeRole (normalizeRole "zzz") = normalizeRole "zzz" :=
  ⟨(C8_normalizeRole_total_default_idempotent "zzz").2.1
      (by decide) (by decide) (by decide),
   (C8_normalizeRole_total_default_idempotent "zzz").2.2⟩

/-! ## Claim C3 -/

/-- C3 counterexample: `parse_plain_text` on the empty string emits a user
message whose content strips to empty (it is the empty string), and
`parse_markdown_chat` on a whitespace-only string (with no pattern
matching anything) does the same through its fallback — neither drops the
message. -/
theorem C3_counterexample :
    (parsePlainText "" "auto").1 = [⟨"user", ""⟩]
    ∧ (parseMarkdownChat (fun _ _ => []) "   ").1 = [⟨"user", ""⟩]
    ∧ pyStrip "" = "" := by
  refine ⟨by decide, by decide, by decide⟩

/-- C3 as amended: the non-empty-after-trimming invariant holds for every
message produced by `parse_json_chat` and for every pattern-derived
message of `parse_markdown_chat` (format `"conversation"`); but
`parse_plain_text` — and likewise the markdown single-message fallback —
emits the stripped input unconditionally as one user message, which has
empty content when the input is empty or whitespace-only. -/
theorem C3_amended (data : Option JsonChat)
    (findall : Nat → String → List (String × String))
    (content extractMode : String) :
    (∀ msgs, parseJsonChat data = Except.ok msgs →
      ∀ m ∈ msgs, pyStrip m.content ≠ "")
    ∧ ((parseMarkdownChat findall content).2 = "conversation" →
      ∀ m ∈ (parseMarkdownChat findall content).1, pyStrip m.content ≠ "")
    ∧ (parsePlainText content extractMode).1 = [⟨"user", pyStrip content⟩] := by
  refine ⟨?_, ?_, ?_⟩
  · intro msgs h m hm
    match data with
    | none => exact Except.noConfusion h
    | some jc =>
      unfold parseJsonChat at h
      dsimp only at h
      by_cases hb : jc.hasMessages
      · rw [if_pos hb] at h
        split at h
        · exact Except.noConfusion h
        · have hmsgs := Except.ok.inj h
          rw [← hmsgs] at hm
          obtain ⟨r, _, hr⟩ := List.mem_filterMap.mp hm
          exact jsonMsgStep_content_ne hr
      · rw [if_neg hb] at h
        exact Except.noConfusion h
  · intro hfmt m hm
    unfold parseMarkdownChat at hfmt hm
    by_cases hE :
        (buildMdMsgs (firstFindall findall content [0, 1, 2, 3])).isEmpty
    · rw [if_pos hE] at hfmt
      have hss : ("single_message" : String) = "conversation" := hfmt
      exact absurd hss (by decide)
    · rw [if_neg hE] at hm
      exact buildMdMsgs_content_ne hm
  · unfold parsePlainText
    split <;> rfl

/-- Witness for C3 as amended: at a one-message JSON conversation and a
one-turn markdown chat, the kept contents strip to non-empty. -/
theorem C3_amended_witness :
    pyStrip (Msg.mk "user" "hi").content ≠ ""
    ∧ pyStrip (Msg.mk "assistant" "ok").content ≠ "" :=
  ⟨(C3_amended (some ⟨true, [.dict (some "user") (some "hi")]⟩)
      (fun _ _ => []) "" "auto").1 [⟨"user", "hi"⟩] (by rfl)
      ⟨"user", "hi"⟩ (by decide),
   (C3_amended none (fun i _ => if i == 0 then [("Assistant", "ok")] else [])
      "**Assistant:** ok" "auto").2.1 (by decide) ⟨"assistant", "ok"⟩
      (by decide)⟩

/-! ## Claim C10 -/

/-- The pattern loop stops at the first index whose findall result is
non-empty, for any matcher agreeing with `findall` up to that index. -/
theorem firstFindall_stops
    (findall : Nat → String → List (String × String)) (content : String)
    (i : Nat) (hi : i < 4)
    (hne : findall i content ≠ [])
    (hprev : ∀ j, j < i → findall j content = [])
    (g : Nat → String → List (String × String))
    (hg : ∀ j, j ≤ i → g j content = findall j content) :
    firstFindall g content [0, 1, 2, 3] = findall i content := by
  have hcons : ∀ (k : Nat) (rest : List Nat),
      firstFindall g content (k :: rest)
        = if (g k content).isEmpty then firstFindall g content rest
          else g k content := fun k rest => rfl
  interval_cases i
  · have h0 := hg 0 (by omega)
    rw [hcons, h0]
    cases hc : findall 0 content with
    | nil => exact absurd hc hne
    | cons a t => simp [hc]
  · have h0 := (hg 0 (by omega)).trans (hprev 0 (by omega))
    have h1 := hg 1 (by omega)
    rw [hcons, h0, hcons, h1]
    cases hc : findall 1 content with
    | nil => exact absurd hc hne
    | cons a t => simp [hc]
  · have h0 := (hg 0 (by omega)).trans (hprev 0 (by omega))
    have h1 := (hg 1 (by omega)).trans (hprev 1 (by omega))
    have h2 := hg 2 (by omega)
    rw [hcons, h0, hcons, h1, hcons, h2]
    cases hc : findall 2 content with
    | nil => exact absurd hc hne
    | cons a t => simp [hc]
  · have h0 := (hg 0 (by omega)).trans (hprev 0 (by omega))
    have h1 := (hg 1 (by omega)).trans (hprev 1 (by omega))
    have h2 := (hg 2 (by omega)).trans (hprev 2 (by omega))
    have h3 := hg 3 (by omega)
    rw [hcons, h0, hcons, h1, hcons, h2, hcons, h3]
    cases hc : findall 3 content with
    | nil => exact absurd hc hne
    | cons a t => simp [hc]

/-- C10: when the first pattern of `parse_markdown_chat` that yields any
match produces only bodies that strip to empty, the parser falls back to
the single user message with format `single_message`, and no later
pattern is consulted: the result does not depend on what any pattern
after the winning one would return. -/
theorem C10_markdown_zero_survivor_fallback
    (findall : Nat → String → List (String × String)) (content : String)
    (i : Nat) (hi : i < 4)
    (hne : findall i content ≠ [])
    (hprev : ∀ j, j < i → findall j content = [])
    (hempty : ∀ p ∈ findall i content, pyStrip p.2 = "") :
    parseMarkdownChat findall content
      = ([⟨"user", pyStrip content⟩], "single_message")
    ∧ ∀ findall2 : Nat → String → List (String × String),
        (∀ j, j ≤ i → findall2 j content = findall j content) →
        parseMarkdownChat findall2 content
          = parseMarkdownChat findall content := by
  have hwin := firstFindall_stops findall content i hi hne hprev findall
    (fun _ _ => rfl)
  have hbuild : buildMdMsgs (findall i content) = [] := by
    refine List.filterMap_eq_nil_iff.mpr (fun p hp => ?_)
    simp [hempty p hp]
  constructor
  · simp only [parseMarkdownChat]
    rw [hwin, hbuild]
    rfl
  · intro g hg
    have hwin2 := firstFindall_stops findall content i hi hne hprev g hg
    simp only [parseMarkdownChat]
    rw [hwin, hwin2]

/-- Witness for C10: pattern index 0 matches `"**User:**"` with an empty
body, so the fallback fires even though a later pattern would have
produced a surviving message. -/
theorem C10_witness :
    parseMarkdownChat
      (fun j _ => if j == 0 then [("User", "")] else [("A", "B")])
      "**User:**"
      = ([⟨"user", pyStrip "**User:**"⟩], "single_message") :=
  (C10_markdown_zero_survivor_fallback
    (fun j _ => if j == 0 then [("User", "")] else [("A", "B")])
    "**User:**" 0 (by omega) (by decide)
    (fun j hj => absurd hj (by omega)) (by decide)).1

/-! ## Claim C7 -/

/-- C7: for every `.md`-suffixed path (case-insensitive), whenever the
content contains one of the two export-tool markers, or is longer than
3000 characters, or has more than 50 newlines, `parse_file` selects
`plain_text` — for every behaviour of the JSON check and of the regex
matcher, so in particular even when every markdown chat indicator
matches. -/
theorem C7_md_override_forces_plain_text
    (isJsonChat : String → Bool) (hasMatch : Nat → String → Bool)
    (decodeJson : String → Option JsonChat)
    (findall : Nat → String → List (String × String))
    (name content extractMode : String)
    (hmd : pyLower (pathSuffix name) = ".md")
    (hcond : mdOverride content = true) :
    parseFileContentType isJsonChat hasMatch name content = "plain_text"
    ∧ parseFileMessages isJsonChat hasMatch decodeJson findall name content
        extractMode = .ok (parsePlainText content extractMode).1 := by
  have hb : (pyLower (pathSuffix name) == ".md") = true :=
    beq_iff_eq.mpr hmd
  have hct : parseFileContentType isJsonChat hasMatch name content
      = "plain_text" := by
    unfold parseFileContentType
    rw [hb, hcond]
    rfl
  refine ⟨hct, ?_⟩
  unfold parseFileMessages
  rw [hct]
  rfl

/-- Witness for C7: a `.md` file containing the export marker is parsed
as plain text even with a matcher that reports every chat indicator as
matching. -/
theorem C7_witness :
    parseFileContentType (fun _ => false) (fun _ _ => true) "chat.md"
        "This conversation was exported **User:** hi" = "plain_text" :=
  (C7_md_override_forces_plain_text (fun _ => false) (fun _ _ => true)
    (fun _ => none) (fun _ _ => []) "chat.md"
    "This conversation was exported **User:** hi" "auto"
    (by decide) (by decide)).1

/-! ## Claim C9 -/

/-- C9: `upload_batch` produces exactly one outcome per input file, in
input order; each outcome is tagged `success` or `error` and carries its
own file path; and each outcome depends only on that file's own
`upload_file` result, so one file's failure cannot affect any other
file's processing. -/
theorem C9_uploadBatch_per_item
    (uploadFile : String → Except String String)
    (filePaths : List String) :
    (uploadBatch uploadFile filePaths).length = filePaths.length
    ∧ ∀ (i : Nat) (f : String), filePaths[i]? = some f →
        (uploadBatch uploadFile filePaths)[i]?
            = some (batchOutcome uploadFile f)
        ∧ ((batchOutcome uploadFile f).status = "success"
            ∨ (batchOutcome uploadFile f).status = "error")
        ∧ (batchOutcome uploadFile f).file = f := by
  refine ⟨by simp [uploadBatch], ?_⟩
  intro i f hf
  refine ⟨?_, ?_, ?_⟩
  · rw [uploadBatch, List.getElem?_map, hf]
    rfl
  · unfold batchOutcome
    cases uploadFile f with
    | ok r => exact Or.inl rfl
    | error e => exact Or.inr rfl
  · unfold batchOutcome
    cases uploadFile f with
    | ok r => rfl
    | error e => rfl

/-- Witness for C9: in a two-file batch where the first file raises, the
first outcome is an error and the second file is still uploaded. -/
theorem C9_witness :
    (uploadBatch (fun f => if f == "a.txt" then .error "boom" else .ok "id1")
        ["a.txt", "b.txt"])[0]? = some ⟨"a.txt", "error", "boom"⟩
    ∧ (uploadBatch (fun f => if f == "a.txt" then .error "boom"
          else .ok "id1") ["a.txt", "b.txt"])[1]?
        = some ⟨"b.txt", "success", "id1"⟩ :=
  ⟨((C9_uploadBatch_per_item
      (fun f => if f == "a.txt" then .error "boom" else .ok "id1")
      ["a.txt", "b.txt"]).2 0 "a.txt" rfl).1,
   ((C9_uploadBatch_per_item
      (fun f => if f == "a.txt" then .error "boom" else .ok "id1")
      ["a.txt", "b.txt"]).2 1 "b.txt" rfl).1⟩

/-! ## Claim C4 -/

/-- C4 counterexample: the pattern list tried by `parse_markdown_chat` is
NOT the indicator list of `detect_content_type` — the parser tries four
patterns while the detector tests five. -/
theorem C4_counterexample : parserPatterns ≠ chatIndicators := by decide

/-- C4 as amended: the markdown parser tries four patterns, not five; in
order, each of them extends the corresponding one of the detector's first
four indicators (the indicator is, capture parentheses aside, the leading
core of the parser pattern), and the detector's fifth indicator — bare
role keywords near a delimiter — has no parser counterpart. -/
theorem C4_amended :
    parserPatterns.length = 4
    ∧ chatIndicators.length = 5
    ∧ (parserPatterns.zip chatIndicators).all
        (fun p => startsWithList (stripParens p.1).data p.2.data) = true := by
  refine ⟨rfl, rfl, by decide⟩

/-! ## Claim C2 -/

/-- C2 counterexample: on an inverted range (start after end),
`search_by_time_range` does NOT fail: it returns a backend `get_all`
query carrying the inverted `gte`/`lte` filter. -/
theorem C2_counterexample :
    searchByTimeRangeCall (fun _ => ("", "")) none (some "2024-05-02")
        (some "2024-05-01") "alice" none 10
      = .ok (.getAll (.and [.field "user_id" "alice",
          .range "created_at" [("gte", "2024-05-02"), ("lte", "2024-05-01")]])
          10)
    ∧ pyStrLt "2024-05-01" "2024-05-02" = true :=
  ⟨rfl, by decide⟩

/-- C2 as amended: `search_by_time_range` performs no ordering validation
on its dates.  For every pair of provided start/end dates — inverted or
not — it issues the backend query with the `gte start`/`lte end` filter;
its only fail-fast validation is the missing-argument check, raising when
`days_back` is absent and either date is missing. -/
theorem C2_amended (dateRange : Nat → String × String) (s e u q : String)
    (lim : Nat) :
    (searchByTimeRangeCall dateRange none (some s) (some e) u none lim
      = .ok (.getAll (.and [.field "user_id" u,
          .range "created_at" [("gte", s), ("lte", e)]]) lim))
    ∧ (q ≠ "" →
      searchByTimeRangeCall dateRange none (some s) (some e) u (some q) lim
        = .ok (.search q (.and [.field "user_id" u,
            .range "created_at" [("gte", s), ("lte", e)]]) lim))
    ∧ (searchByTimeRangeCall dateRange none none (some e) u none lim
      = .error
        "Either days_back or both start_date and end_date must be provided")
    ∧ (searchByTimeRangeCall dateRange none (some s) none u none lim
      = .error
        "Either days_back or both start_date and end_date must be provided")
    ∧ (searchByTimeRangeCall dateRange none none none u none lim
      = .error
        "Either days_back or both start_date and end_date must be provided") := by
  refine ⟨rfl, ?_, rfl, rfl, rfl⟩
  intro hq
  have hqb : (q == "") = false := beq_eq_false_iff_ne.mpr hq
  simp [searchByTimeRangeCall, timeRangeQuery, timeRangeFilter, hqb]

/-- Witness for C2 as amended, with an inverted range and a query. -/
theorem C2_amended_witness :
    searchByTimeRangeCall (fun _ => ("", "")) none (some "2024-07-09")
        (some "2024-07-02") "u1" (some "deploy") 5
      = .ok (.search "deploy" (.and [.field "user_id" "u1",
          .range "created_at" [("gte", "2024-07-09"), ("lte", "2024-07-02")]])
          5) :=
  (C2_amended (fun _ => ("", "")) "2024-07-09" "2024-07-02" "u1" "deploy"
    5).2.1 (by decide)

/-! ## Claim C5 -/

/-- Whatever the query, the `search_by_time_range` backend call carries
the time-range filter. -/
theorem callFilter_timeRangeQuery (se : String × String) (u : String)
    (tq : Option String) (lim : Nat) :
    callFilter (timeRangeQuery se u tq lim) = timeRangeFilter se u := by
  unfold timeRangeQuery
  rcases tq with _ | q
  · rfl
  · dsimp only
    split <;> rfl

/-- Any `.ok` result of `search_by_time_range` carries a user-scoped
outer AND filter. -/
theorem searchByTimeRangeCall_ok_scoped (dateRange : Nat → String × String)
    (daysBack : Option Nat) (startDate endDate : Option String)
    (u : String) (tq : Option String) (lim : Nat) (c : BackendCall)
    (hc : searchByTimeRangeCall dateRange daysBack startDate endDate u tq lim
      = .ok c) :
    isUserScopedAnd (callFilter c) u := by
  have hq : ∀ se : String × String,
      isUserScopedAnd (callFilter (timeRangeQuery se u tq lim)) u := by
    intro se
    rw [callFilter_timeRangeQuery]
    exact ⟨_, rfl, by simp⟩
  cases daysBack with
  | some d => exact (Except.ok.inj hc) ▸ hq (dateRange d)
  | none =>
    cases startDate with
    | none =>
      cases endDate with
      | none => exact Except.noConfusion hc
      | some e0 => exact Except.noConfusion hc
    | some s0 =>
      cases endDate with
      | none => exact Except.noConfusion hc
      | some e0 => exact (Except.ok.inj hc) ▸ hq (s0, e0)

/-- C5 counterexample: the first backend call of `get_user_stats` passes
the bare `{"user_id": user_id}` dict — not an outer AND tree. -/
theorem C5_counterexample :
    (getUserStatsCalls (fun _ => ("2024-01-01", "2024-01-08"))
        "alice").head?
      = some (.getAll (.field "user_id" "alice") 1000)
    ∧ ¬ isUserScopedAnd
        (callFilter (.getAll (.field "user_id" "alice") 1000)) "alice" := by
  refine ⟨rfl, ?_⟩
  rintro ⟨fs, hf, -⟩
  exact MFilter.noConfusion hf

/-- C5 as amended: every backend filter of the user-scoped entry points
contains the `user_id` equality; `search_by_query`,
`search_by_time_range`, `search_related_to_content` and both weekly-report
calls wrap it in an outer AND, while the first `get_all` of
`get_user_stats` passes the bare `{"user_id": user_id}` mapping and only
its second call (through `search_by_time_range`) is AND-wrapped. -/
theorem C5_amended (query content u : String) (lim : Nat)
    (extra : Option MFilter) (dateRange : Nat → String × String)
    (daysBack : Option Nat) (startDate endDate : Option String)
    (tQuery : Option String)
    (excludeRange : Option (Option String × Option String))
    (backend : BackendCall → List Memory) (ws we : String) (maxLim : Nat) :
    isUserScopedAnd (callFilter (searchByQueryCall query u lim extra)) u
    ∧ (∀ c : BackendCall,
        searchByTimeRangeCall dateRange daysBack startDate endDate u
          tQuery lim = .ok c → isUserScopedAnd (callFilter c) u)
    ∧ isUserScopedAnd
        (callFilter (searchRelatedCall content u excludeRange lim)) u
    ∧ (∀ c ∈ (searchWeeklyReportData backend ws we u maxLim).1,
        isUserScopedAnd (callFilter c) u)
    ∧ (getUserStatsCalls dateRange u).head?
        = some (.getAll (.field "user_id" u) 1000)
    ∧ (∀ c ∈ (getUserStatsCalls dateRange u).tail,
        isUserScopedAnd (callFilter c) u) := by
  have hq : ∀ (q0 : String) (l0 : Nat) (ex0 : Option MFilter),
      isUserScopedAnd (callFilter (searchByQueryCall q0 u l0 ex0)) u := by
    intro q0 l0 ex0
    cases ex0 with
    | none => exact ⟨_, rfl, by simp⟩
    | some f0 => exact ⟨_, rfl, by simp⟩
  have hc1 : ∀ (ws0 we0 : String) (ml0 : Nat),
      isUserScopedAnd (callFilter (weeklyCall1 ws0 we0 u ml0)) u :=
    fun _ _ _ => ⟨_, rfl, by simp⟩
  refine ⟨hq query lim extra, ?_, ?_, ?_, rfl, ?_⟩
  · intro c hc
    exact searchByTimeRangeCall_ok_scoped dateRange daysBack startDate
      endDate u tQuery lim c hc
  · unfold searchRelatedCall
    match excludeRange with
    | none => exact ⟨_, rfl, by simp⟩
    | some (none, _) => exact ⟨_, rfl, by simp⟩
    | some (some s0, none) => exact ⟨_, rfl, by simp⟩
    | some (some s0, some e0) => exact ⟨_, rfl, by simp⟩
  · intro c hc
    simp only [searchWeeklyReportData] at hc
    split at hc
    · simp only [List.mem_singleton] at hc
      exact hc ▸ hc1 ws we maxLim
    · split at hc
      · simp only [List.mem_singleton] at hc
        exact hc ▸ hc1 ws we maxLim
      · simp only [List.mem_cons, List.mem_singleton, List.not_mem_nil,
          or_false] at hc
        rcases hc with hc | hc
        · exact hc ▸ hc1 ws we maxLim
        · exact hc ▸ hq _ _ _
  · intro c hc
    have htail : (getUserStatsCalls dateRange u).tail
        = [timeRangeQuery (dateRange 7) u none 1000] := rfl
    rw [htail, List.mem_singleton] at hc
    subst hc
    exact searchByTimeRangeCall_ok_scoped dateRange (some 7) none none u
      none 1000 (timeRangeQuery (dateRange 7) u none 1000) rfl

/-- Witness for C5 as amended: the concrete filter issued by
`search_by_time_range` for an explicit range is user-scoped. -/
theorem C5_amended_witness :
    isUserScopedAnd
      (callFilter (.getAll (.and [.field "user_id" "u1",
        .range "created_at" [("gte", "2024-01-01"), ("lte", "2024-01-07")]])
        10)) "u1" :=
  (C5_amended "q" "c" "u1" 10 none (fun _ => ("x", "y")) none
    (some "2024-01-01") (some "2024-01-07") none none (fun _ => [])
    "ws" "we" 50).2.1 _ rfl

/-! ## Claim C6 -/

/-- C6 counterexample: a week whose only record has empty `memory` text —
the first query returns one record, yet no second query is issued (one
backend call in total) and `related_memories` is empty, against the
claim's "whenever the first query returns at least one record, the second
semantic query is issued". -/
theorem C6_counterexample :
    (searchWeeklyReportData
        (fun c => match c with
          | .getAll _ _ => [⟨""⟩]
          | .search _ _ _ => [⟨"should never be queried"⟩])
        "2024-01-01" "2024-01-07" "alice" 100).1.length = 1
    ∧ (searchWeeklyReportData
        (fun c => match c with
          | .getAll _ _ => [⟨""⟩]
          | .search _ _ _ => [⟨"should never be queried"⟩])
        "2024-01-01" "2024-01-07" "alice" 100).2.weekMemories = [⟨""⟩]
    ∧ (searchWeeklyReportData
        (fun c => match c with
          | .getAll _ _ => [⟨""⟩]
          | .search _ _ _ => [⟨"should never be queried"⟩])
        "2024-01-01" "2024-01-07" "alice" 100).2.relatedMemories = [] := by
  refine ⟨rfl, rfl, rfl⟩

/-- C6 as amended: the zero-record direction of the claim holds — an
empty week yields `related_memories = []` with exactly the one backend
call — and the second query is issued if and only if the week is
non-empty AND the space-joined memory text of its first 5 records strips
to non-empty; when issued it carries that text truncated to 500
characters. -/
theorem C6_amended (backend : BackendCall → List Memory)
    (ws we u : String) (maxLim : Nat) :
    (searchWeeklyReportData backend ws we u maxLim).2.weekMemories
      = backend (weeklyCall1 ws we u maxLim)
    ∧ (backend (weeklyCall1 ws we u maxLim) = [] →
        searchWeeklyReportData backend ws we u maxLim
          = ([weeklyCall1 ws we u maxLim], ⟨[], []⟩))
    ∧ (backend (weeklyCall1 ws we u maxLim) ≠ [] →
       pyStrip (weeklyQueryText (backend (weeklyCall1 ws we u maxLim)))
          = "" →
        searchWeeklyReportData backend ws we u maxLim
          = ([weeklyCall1 ws we u maxLim],
             ⟨backend (weeklyCall1 ws we u maxLim), []⟩))
    ∧ (backend (weeklyCall1 ws we u maxLim) ≠ [] →
       pyStrip (weeklyQueryText (backend (weeklyCall1 ws we u maxLim)))
          ≠ "" →
        searchWeeklyReportData backend ws we u maxLim
          = ([weeklyCall1 ws we u maxLim,
              weeklyCall2 ws u
                (weeklyQueryText (backend (weeklyCall1 ws we u maxLim)))],
             ⟨backend (weeklyCall1 ws we u maxLim),
              backend (weeklyCall2 ws u
                (weeklyQueryText (backend (weeklyCall1 ws we u maxLim))))⟩)) := by
  refine ⟨?_, ?_, ?_, ?_⟩
  · simp only [searchWeeklyReportData]
    split
    · rfl
    · split
      · rfl
      · rfl
  · intro h
    simp [searchWeeklyReportData, h]
  · intro h1 h2
    have hE : (backend (weeklyCall1 ws we u maxLim)).isEmpty = false := by
      cases hc : backend (weeklyCall1 ws we u maxLim) with
      | nil => exact absurd hc h1
      | cons a t => rfl
    simp [searchWeeklyReportData, hE, h2]
  · intro h1 h2
    have hE : (backend (weeklyCall1 ws we u maxLim)).isEmpty = false := by
      cases hc : backend (weeklyCall1 ws we u maxLim) with
      | nil => exact absurd hc h1
      | cons a t => rfl
    have hb2 : (pyStrip (weeklyQueryText
        (backend (weeklyCall1 ws we u maxLim))) == "") = false :=
      beq_eq_false_iff_ne.mpr h2
    simp [searchWeeklyReportData, hE, hb2]

/-- Witness for C6 as amended: a week with one non-blank record issues
the second query and collects its results. -/
theorem C6_amended_witness :
    searchWeeklyReportData
      (fun c => match c with
        | .getAll _ _ => [⟨"hello"⟩]
        | .search _ _ _ => [⟨"old"⟩])
      "2024-01-08" "2024-01-14" "u1" 100
    = ([weeklyCall1 "2024-01-08" "2024-01-14" "u1" 100,
        weeklyCall2 "2024-01-08" "u1" "hello"],
       ⟨[⟨"hello"⟩], [⟨"old"⟩]⟩) :=
  (C6_amended
    (fun c => match c with
      | .getAll _ _ => [⟨"hello"⟩]
      | .search _ _ _ => [⟨"old"⟩])
    "2024-01-08" "2024-01-14" "u1" 100).2.2.2 (by decide) (by decide)

/-! ## Claim C1 -/

/-- C1 (code bug): in `upload_text` the dict-literal merge puts the three
fresh fields FIRST, so later sources override them: caller metadata with
a `user_id` or `upload_time` key wins over the freshly computed values.
`upload_file`, by contrast, applies the fresh fields via
`metadata.update(...)` AFTER the parsed metadata, so there they do take
precedence, as the spec requires. -/
theorem C1_uploadText_metadata_forgeable :
    mget (uploadTextMeta "2024-06-01T12:00:00" "alice" "auto"
        "2024-06-01T12:00:00"
        (some [("user_id", MVal.s "forged"),
               ("upload_time", MVal.s "1999-01-01T00:00:00")])
        none none none none) "user_id" = some (MVal.s "forged")
    ∧ mget (uploadTextMeta "2024-06-01T12:00:00" "alice" "auto"
        "2024-06-01T12:00:00"
        (some [("user_id", MVal.s "forged"),
               ("upload_time", MVal.s "1999-01-01T00:00:00")])
        none none none none) "upload_time"
        = some (MVal.s "1999-01-01T00:00:00")
    ∧ mget (uploadFileMeta [("user_id", MVal.s "forged")]
        "2024-06-01T12:00:00" "alice" "auto" none none none none) "user_id"
        = some (MVal.s "alice") := by
  refine ⟨by decide, by decide, by decide⟩

end Mem0Client
